import Mathlib

/-!
Verification of the monitoring subsystem (rate limiter, security middleware,
performance dashboard, bundle analyzer, build hooks) of the
`bun-enhanced-file-analyzer` repository against its natural-language
specification.

The implementation modules (`src/security/secure-cookie-manager.ts` and
`scripts/build-hooks.ts`) are not present in the source tree; only their test
suite (`src/test/build-hooks.test.ts`) is.  The definitions below are therefore
modelled from the specification and, where the specification leaves an exact
observable open (an error message, a constant), from the behaviour pinned by
the test suite, as indicated in each doc comment.
-/

/-- Modelled from the spec: `PolicyVerdict` — `\x7b allowed: bool, reason: optional string \x7d`,
produced fresh per evaluated request (the implementation file
`src/security/secure-cookie-manager.ts` is missing from the source tree). -/
structure Verdict where
  allowed : Bool
  reason : Option String
deriving DecidableEq

/-- Modelled from the spec: per-identifier `RateWindow` record of count and window start. -/
structure RateWindow where
  count : Nat
  windowStart : Nat
deriving DecidableEq

/-- Modelled from the spec: the illustrative rate-limit cap (100 requests per window). -/
def rateCap : Nat := 100

/-- Modelled from the spec: the illustrative window duration (60 s, in milliseconds). -/
def windowDuration : Nat := 60000

/-- Modelled from the spec: the rate limiter state, one `RateWindow` per identifier,
kept as an association list keyed by identifier. -/
structure RateState where
  windows : List (String × RateWindow)
deriving DecidableEq

def RateState.empty : RateState := ⟨[]⟩

/-- Modelled from the spec: `RateLimiter.check(identifier)` at the current time `now`.
If no window exists or the window has expired (the current time exceeds
`windowStart + windowDuration`), a new window starts with count 1 and the check is
allowed; otherwise the count is incremented and the check is denied with reason
"Rate limit exceeded" exactly when the count exceeds the cap. -/
def RateLimiter.check (st : RateState) (id : String) (now : Nat) : RateState × Verdict :=
  match st.windows.lookup id with
  | none =>
      (⟨(id, ⟨1, now⟩) :: st.windows.eraseP (fun p => p.1 == id)⟩, ⟨true, none⟩)
  | some w =>
      if w.windowStart + windowDuration < now then
        (⟨(id, ⟨1, now⟩) :: st.windows.eraseP (fun p => p.1 == id)⟩, ⟨true, none⟩)
      else
        (⟨(id, ⟨w.count + 1, w.windowStart⟩) :: st.windows.eraseP (fun p => p.1 == id)⟩,
          if rateCap < w.count + 1 then ⟨false, some "Rate limit exceeded"⟩
          else ⟨true, none⟩)

/-- State after `n` successive rate-limiter checks for `id` at time `now`, starting
from the empty rate state. -/
def runChecks (id : String) (now : Nat) : Nat → RateState
  | 0 => RateState.empty
  | n + 1 => (RateLimiter.check (runChecks id now n) id now).1

/-- Verdict of the `k`-th (1-indexed) successive rate-limiter check for `id` at time
`now`, starting from the empty rate state. -/
def nthVerdict (id : String) (now k : Nat) : Verdict :=
  (RateLimiter.check (runChecks id now (k - 1)) id now).2

/-- Does the first list occur at the head of the second (character-wise)? -/
def leadsWith : List Char → List Char → Bool
  | [], _ => true
  | _ :: _, [] => false
  | p :: ps, c :: cs => p == c && leadsWith ps cs

/-- Substring occurrence test over character lists. -/
def occursIn (p : List Char) : List Char → Bool
  | [] => leadsWith p []
  | c :: cs => leadsWith p (c :: cs) || occursIn p cs

/-- Modelled from the spec: the known non-browser / scraping User-Agent signatures
named by the specification (`curl`, `python-requests`). -/
def suspiciousAgents : List String := ["curl", "python-requests"]

/-- Modelled from the spec: a User-Agent header is invalid when it is missing, empty,
or contains a known scraping signature. -/
def isInvalidUserAgent : Option String → Bool
  | none => true
  | some s => s.data.isEmpty || suspiciousAgents.any (fun sig => occursIn sig.data s.data)

/-- Modelled from the spec: the fixed declared-content-length ceiling (10 MiB). -/
def maxRequestSize : Nat := 10 * 1024 * 1024

/-- The request metadata the security middleware inspects: a derivable client
identifier, the User-Agent header (possibly missing), and the declared
Content-Length (possibly missing). -/
structure SecRequest where
  ip : String
  userAgent : Option String
  contentLength : Option Nat
deriving DecidableEq

/-- Modelled from the spec: the `SecurityMiddleware` state — the block list and the
rate limiter state it owns. -/
structure SecurityMiddleware where
  blocked : List String
  rate : RateState
deriving DecidableEq

/-- A freshly constructed `SecurityMiddleware`: empty block list, empty rate state. -/
def SecurityMiddleware.init : SecurityMiddleware := ⟨[], RateState.empty⟩

/-- Modelled from the spec: `blockIP(id)` adds the identifier to the block list. -/
def SecurityMiddleware.blockIP (m : SecurityMiddleware) (ip : String) : SecurityMiddleware :=
  { m with blocked := ip :: m.blocked }

/-- Modelled from the spec: `unblockIP(id)` removes the identifier from the block list. -/
def SecurityMiddleware.unblockIP (m : SecurityMiddleware) (ip : String) : SecurityMiddleware :=
  { m with blocked := m.blocked.filter (fun x => !(x == ip)) }

/-- Modelled from the spec: `secureRequest(req)` evaluates, in fixed order and
short-circuiting on first denial: block-list membership ("IP blocked"), User-Agent
allow-list ("Invalid user agent"), declared size ceiling ("Request too large"),
then the rate limiter; if all pass, the verdict is allowed.  It always produces a
verdict (it is a total function). -/
def SecurityMiddleware.secureRequest (m : SecurityMiddleware) (req : SecRequest) (now : Nat) :
    SecurityMiddleware × Verdict :=
  if m.blocked.contains req.ip then (m, ⟨false, some "IP blocked"⟩)
  else if isInvalidUserAgent req.userAgent then (m, ⟨false, some "Invalid user agent"⟩)
  else if maxRequestSize < req.contentLength.getD 0 then (m, ⟨false, some "Request too large"⟩)
  else
    let r := RateLimiter.check m.rate req.ip now
    ({ m with rate := r.1 }, r.2)

/-- Modelled from the spec: a recorded metric value.  JavaScript numbers are modelled
as either a finite rational or one of the non-finite values NaN, +Infinity,
-Infinity. -/
inductive JVal where
  | num (q : ℚ)
  | nan
  | inf
  | ninf
deriving DecidableEq

/-- Is the value finite? -/
def JVal.isFinite : JVal → Bool
  | num _ => true
  | _ => false

/-- JavaScript-style `value > threshold` comparison: NaN compares false, +Infinity
compares true, -Infinity compares false. -/
def JVal.exceeds : JVal → ℚ → Bool
  | num q, t => decide (t < q)
  | inf, _ => true
  | _, _ => false

/-- Modelled from the spec: the static per-metric threshold table
(`response_time` above 1000 and `error_rate` above 0.01 raise warnings). -/
def thresholds : List (String × ℚ) := [("response_time", 1000), ("error_rate", 1/100)]

/-- Modelled from the spec: an `Alert` with metric name, offending value, breached
threshold, severity and no further payload (timestamps are out of the model). -/
structure Alert where
  metric : String
  value : JVal
  threshold : ℚ
  severity : String
deriving DecidableEq

/-- Modelled from the spec: the per-metric sample-sequence size bound (1000). -/
def maxSamples : Nat := 1000

/-- Modelled from the spec: the alert-log size bound ("capped similarly to samples"). -/
def maxAlerts : Nat := 1000

/-- Append to an ordered capped sequence: push the new element at the end and, once
the size bound is exceeded, evict the oldest (front) element. -/
def cappedPush {α : Type} (cap : Nat) (l : List α) (a : α) : List α :=
  let l' := l ++ [a]
  if cap < l'.length then l'.drop 1 else l'

/-- Modelled from the spec: the `PerformanceDashboard` (MetricAggregator) state —
an ordered, capped sample sequence per metric name, plus the alert log. -/
structure PerformanceDashboard where
  metrics : List (String × List JVal)
  alerts : List Alert
deriving DecidableEq

def PerformanceDashboard.empty : PerformanceDashboard := ⟨[], []⟩

/-- The retained sample sequence for a metric name (empty if never recorded). -/
def PerformanceDashboard.samplesFor (d : PerformanceDashboard) (name : String) : List JVal :=
  (d.metrics.lookup name).getD []

/-- Modelled from the spec: `recordMetric(name, value)` appends a sample to the
capped per-name sequence, compares the value against the static threshold table,
and on breach appends exactly one warning `Alert` with the matching metric, value
and threshold.  Non-finite values do not throw (the function is total). -/
def PerformanceDashboard.recordMetric (d : PerformanceDashboard) (name : String) (v : JVal) :
    PerformanceDashboard :=
  { metrics := (name, cappedPush maxSamples ((d.metrics.lookup name).getD []) v)
      :: d.metrics.eraseP (fun p => p.1 == name)
    alerts :=
      match thresholds.lookup name with
      | some t =>
          if v.exceeds t then cappedPush maxAlerts d.alerts ⟨name, v, t, "warning"⟩
          else d.alerts
      | none => d.alerts }

/-- The finite values among a sample sequence, in order. -/
def finiteVals (l : List JVal) : List ℚ :=
  l.filterMap (fun v => match v with | .num q => some q | _ => none)

/-- Minimum of a list of rationals (0 on the empty list, which the summary never
exposes for a non-empty finite sample set). -/
def listMinQ : List ℚ → ℚ
  | [] => 0
  | x :: xs => xs.foldl Min.min x

/-- Maximum of a list of rationals (0 on the empty list). -/
def listMaxQ : List ℚ → ℚ
  | [] => 0
  | x :: xs => xs.foldl Max.max x

/-- Modelled from the spec: trend classification — compare the mean of the earliest
third of the retained samples with the mean of the most recent third; "up" / "down"
when the recent mean exceeds / falls below the early mean by a fixed relative
margin (10 %), else "stable". -/
def trendOf (l : List ℚ) : String :=
  if l.length < 3 then "stable"
  else
    let k := l.length / 3
    let firstMean := (l.take k).sum / (k : ℚ)
    let lastMean := (l.drop (l.length - k)).sum / (k : ℚ)
    if firstMean + firstMean / 10 < lastMean then "up"
    else if lastMean < firstMean - firstMean / 10 then "down"
    else "stable"

/-- Modelled from the spec: the derived `MetricSummary` — `count` reflects the raw
sample count, while `avg`, `min`, `max` and `trend` are computed over the finite
samples only (non-finite samples are excluded from aggregate math). -/
structure MetricSummary where
  count : Nat
  avg : ℚ
  min : ℚ
  max : ℚ
  trend : String
deriving DecidableEq

/-- The summary derived on demand from the current sample sequence of one metric. -/
def PerformanceDashboard.summaryFor (d : PerformanceDashboard) (name : String) :
    MetricSummary :=
  let samples := d.samplesFor name
  let fin := finiteVals samples
  { count := samples.length
    avg := fin.sum / (fin.length : ℚ)
    min := listMinQ fin
    max := listMaxQ fin
    trend := trendOf fin }

/-- Modelled from the spec: the human-readable summary — a concatenation of short
fixed phrases keyed to which thresholds are currently breached by the latest
summaries (the phrase trigger level for response time follows the test suite). -/
def PerformanceDashboard.reportSummary (d : PerformanceDashboard) : String :=
  (if (500 : ℚ) < (d.summaryFor "response_time").avg then "Slow responses " else "")
    ++ (if (1 / 100 : ℚ) < (d.summaryFor "error_rate").avg then "High error rate " else "")

/-- Modelled from the spec: the report returned by `generateReport()` — a mapping of
metric names to summaries, the ordered alert sequence, and the summary string. -/
structure Report where
  summaries : List (String × MetricSummary)
  alerts : List Alert
  summary : String

/-- `generateReport()` derives a report from the current dashboard state; it is a
total function (it never throws). -/
def PerformanceDashboard.generateReport (d : PerformanceDashboard) : Report :=
  ⟨d.metrics.map (fun p => (p.1, d.summaryFor p.1)), d.alerts, d.reportSummary⟩

/-- Record a whole sequence of finite values for one metric, in order. -/
def PerformanceDashboard.recordAll (d : PerformanceDashboard) (name : String)
    (vs : List ℚ) : PerformanceDashboard :=
  vs.foldl (fun d q => d.recordMetric name (JVal.num q)) d

/-- Modelled from the spec: the build manifest (metafile) — a read-only mapping of
output file names to byte sizes and input file names to byte sizes. -/
structure Metafile where
  outputs : List (String × Nat)
  inputs : List (String × Nat)
deriving DecidableEq

/-- The `BundleAnalyzer`, holding the manifest it was constructed from. -/
structure BundleAnalyzer where
  metafile : Metafile
deriving DecidableEq

/-- Does an `Except` hold a success value? -/
def exOk {ε α : Type} : Except ε α → Bool
  | .ok _ => true
  | .error _ => false

/-- Modelled from the spec and the test suite: constructing a `BundleAnalyzer` from a
manifest file path; `none` stands for a file that is missing or does not parse as the
expected structure.  Construction then fails with the distinct error message the test
suite asserts ("Metafile not found or invalid"); it never silently constructs. -/
def BundleAnalyzer.ofMetafile : Option Metafile → Except String BundleAnalyzer
  | none => .error "Metafile not found or invalid"
  | some mf => .ok ⟨mf⟩

/-- Modelled from the spec: total output byte size of the analyzed bundle. -/
def BundleAnalyzer.totalSize (a : BundleAnalyzer) : Nat :=
  (a.metafile.outputs.map (fun p => p.2)).sum

/-- Modelled from the spec: number of outputs of the analyzed bundle. -/
def BundleAnalyzer.chunkCount (a : BundleAnalyzer) : Nat :=
  a.metafile.outputs.length

/-- One build output entry of a build result, with path and byte size. -/
structure BuildOutput where
  path : String
  size : Nat
deriving DecidableEq

/-- A build result whose `outputs` field may be absent. -/
structure BuildResult where
  outputs : Option (List BuildOutput)
deriving DecidableEq

/-- The metrics computed by the post-build hooks.  The `compressionPercent` field is
named `compressionRatio` in the source tests. -/
structure BuildMetrics where
  totalSize : Nat
  bundleCount : Nat
  buildTime : Nat
  compressionPercent : Nat
  version : String
  timestamp : Nat
deriving DecidableEq

/-- Modelled from the spec: `calculateBuildMetrics(buildResult, startTime)` from the
missing `scripts/build-hooks.ts`, as pinned by its test suite: a `null` build result
or an absent / empty `outputs` list yields `totalSize = 0` and `bundleCount = 0`
(with a 100 % compression ratio for empty outputs) instead of throwing; otherwise
sizes are summed and outputs counted.  The non-empty compression estimate is a fixed
constant below 100, as the tests only require. -/
def calculateBuildMetrics (r : Option BuildResult) (startTime now : Nat) : BuildMetrics :=
  let outs := match r with
    | none => []
    | some br => br.outputs.getD []
  let total := (outs.map (fun o => o.size)).sum
  { totalSize := total
    bundleCount := outs.length
    buildTime := now - startTime
    compressionPercent := if total = 0 then 100 else 30
    version := "1.3.6"
    timestamp := now }

/-- The options accepted by `runPostBuildHooks`. -/
structure HookOptions where
  outputDir : String
  generateHeaders : Bool
  trackSize : Bool
  createReports : Bool

/-- Modelled from the spec: `runPostBuildHooks(buildResult, options)` computes the
build metrics (its file-writing side effects are out of the model); it tolerates a
`null` build result. -/
def runPostBuildHooks (r : Option BuildResult) (_o : HookOptions) (startTime now : Nat) :
    BuildMetrics :=
  calculateBuildMetrics r startTime now

/-- The size-delta record produced by `trackBundleSize`. -/
structure SizeDelta where
  currentSize : Nat
  previousSize : Nat
  deltaBytes : Int
  deltaPercent : String
  trend : String
deriving DecidableEq

/-- Render an integer number of tenths as a decimal string. -/
def tenthsAsString (n : Int) : String :=
  toString (n / 10) ++ "." ++ toString (n % 10)

/-- Modelled from the spec: `trackBundleSize(currentSize)` from the missing
`scripts/build-hooks.ts`, as pinned by its test suite, with the previously stored
size passed explicitly (the tests run with file operations skipped, so it is 0
there).  When the previous size is 0 the percentage delta falls back to the string
"0.0" instead of a division by zero; the trend is "increase" when the size grew,
"decrease" when it shrank, else "unchanged". -/
def trackBundleSize (current previous : Nat) : SizeDelta :=
  { currentSize := current
    previousSize := previous
    deltaBytes := (current : Int) - (previous : Int)
    deltaPercent :=
      if previous = 0 then "0.0"
      else tenthsAsString (((current : Int) - (previous : Int)) * 1000 / (previous : Int))
    trend :=
      if previous < current then "increase"
      else if current < previous then "decrease"
      else "unchanged" }

theorem check_empty (id : String) (now : Nat) :
    RateLimiter.check RateState.empty id now = (⟨[(id, ⟨1, now⟩)]⟩, ⟨true, none⟩) := rfl

theorem check_single (id : String) (now n : Nat) :
    RateLimiter.check ⟨[(id, ⟨n, now⟩)]⟩ id now =
      (⟨[(id, ⟨n + 1, now⟩)]⟩,
        if rateCap < n + 1 then ⟨false, some "Rate limit exceeded"⟩ else ⟨true, none⟩) := by
  have h1 : ¬ (now + windowDuration < now) := by omega
  simp [RateLimiter.check, List.lookup, List.eraseP, h1]

theorem runChecks_succ_state (id : String) (now : Nat) :
    ∀ n : Nat, runChecks id now (n + 1) = ⟨[(id, ⟨n + 1, now⟩)]⟩ := by
  intro n
  induction n with
  | zero => simp [runChecks, check_empty]
  | succ m ih =>
      show (RateLimiter.check (runChecks id now (m + 1)) id now).1 = _
      rw [ih, check_single]

/-- Claim C1: for every identifier, the first `rateCap` checks of the rate limiter
within a single window all return an allowed verdict, and the `(rateCap + 1)`-th
check within the same window returns a denied verdict with reason
"Rate limit exceeded". -/
theorem rate_limit_cap_exact (id : String) (now k : Nat) (h1 : 1 ≤ k) (h2 : k ≤ rateCap) :
    (nthVerdict id now k).allowed = true ∧
    nthVerdict id now (rateCap + 1) = ⟨false, some "Rate limit exceeded"⟩ := by
  constructor
  · match k, h1, h2 with
    | 1, _, _ =>
        simp [nthVerdict, runChecks, check_empty]
    | (m + 2), _, h2 =>
        have he : m + 2 - 1 = m + 1 := by omega
        rw [nthVerdict, he, runChecks_succ_state, check_single]
        have hlt : ¬ (rateCap < m + 1 + 1) := by
          simp [rateCap] at h2 ⊢; omega
        simp [hlt]
  · have he : rateCap + 1 - 1 = 99 + 1 := by norm_num [rateCap]
    rw [nthVerdict, he, runChecks_succ_state, check_single]
    norm_num [rateCap]

theorem rate_limit_cap_exact_case :
    (nthVerdict "203.0.113.7" 0 1).allowed = true ∧
    nthVerdict "203.0.113.7" 0 (rateCap + 1) = ⟨false, some "Rate limit exceeded"⟩ :=
  rate_limit_cap_exact "203.0.113.7" 0 1 (by decide) (by decide)

theorem contains_filter_self (l : List String) (x : String) :
    (l.filter (fun y => !(y == x))).contains x = false := by
  induction l with
  | nil => rfl
  | cons a l ih =>
      by_cases h : a = x
      · simp [List.filter, h, ih]
      · have h1 : (a == x) = false := beq_false_of_ne h
        have h2 : (x == a) = false := beq_false_of_ne (Ne.symm h)
        simp [List.filter, h1, List.contains, List.elem, h2, ih]
        exact Ne.symm h

/-- Claim C2: a request from an identifier currently in the block list is denied
with reason "IP blocked" regardless of its user agent or declared size (the
block-list rule is evaluated first and short-circuits), and after `unblockIP` the
identifier is no longer in the block list and is immediately eligible to be allowed
again (a request with a valid user agent, an in-bound size and a fresh rate window
is allowed). -/
theorem blocklist_first_and_unblock (m : SecurityMiddleware) (req : SecRequest) (now : Nat)
    (hb : m.blocked.contains req.ip = true) :
    (m.secureRequest req now).2 = ⟨false, some "IP blocked"⟩ ∧
    (m.unblockIP req.ip).blocked.contains req.ip = false ∧
    (isInvalidUserAgent req.userAgent = false →
      req.contentLength.getD 0 ≤ maxRequestSize →
      m.rate.windows.lookup req.ip = none →
      ((m.unblockIP req.ip).secureRequest req now).2 = ⟨true, none⟩) := by
  have hmem : req.ip ∈ m.blocked := List.mem_of_elem_eq_true hb
  refine ⟨by simp [SecurityMiddleware.secureRequest, hmem], ?_, ?_⟩
  · exact contains_filter_self m.blocked req.ip
  · intro hua hsz hrate
    have hc : (m.unblockIP req.ip).blocked.contains req.ip = false :=
      contains_filter_self m.blocked req.ip
    have hnm : req.ip ∉ (m.unblockIP req.ip).blocked := by
      intro hm
      simp [List.contains] at hc
      exact hc hm
    have hs : ¬ (maxRequestSize < req.contentLength.getD 0) := by omega
    have hr : (m.unblockIP req.ip).rate = m.rate := rfl
    simp [SecurityMiddleware.secureRequest, hnm, hua, hs, hr, RateLimiter.check, hrate]
  
theorem blocklist_first_and_unblock_case :
    ((SecurityMiddleware.init.blockIP "192.168.1.100").secureRequest
        ⟨"192.168.1.100", some "curl/7.68.0", some (15 * 1024 * 1024)⟩ 0).2
      = ⟨false, some "IP blocked"⟩ ∧
    (((SecurityMiddleware.init.blockIP "192.168.1.100").unblockIP
        "192.168.1.100").blocked.contains "192.168.1.100") = false ∧
    (isInvalidUserAgent (⟨"192.168.1.100", some "curl/7.68.0",
        some (15 * 1024 * 1024)⟩ : SecRequest).userAgent = false →
      (⟨"192.168.1.100", some "curl/7.68.0",
        some (15 * 1024 * 1024)⟩ : SecRequest).contentLength.getD 0 ≤ maxRequestSize →
      (SecurityMiddleware.init.blockIP
          "192.168.1.100").rate.windows.lookup "192.168.1.100" = none →
      (((SecurityMiddleware.init.blockIP "192.168.1.100").unblockIP
          "192.168.1.100").secureRequest
          ⟨"192.168.1.100", some "curl/7.68.0", some (15 * 1024 * 1024)⟩ 0).2
        = ⟨true, none⟩) :=
  blocklist_first_and_unblock (SecurityMiddleware.init.blockIP "192.168.1.100")
    ⟨"192.168.1.100", some "curl/7.68.0", some (15 * 1024 * 1024)⟩ 0 (by decide)

/-- Claim C3: a request whose User-Agent header is a known non-browser / scraping
signature (such as `curl` or `python-requests`) or is empty or missing is denied by
a fresh middleware with reason "Invalid user agent"; `secureRequest` produces this
verdict as a total function rather than throwing. -/
theorem invalid_user_agent_denied (req : SecRequest) (now : Nat)
    (h : isInvalidUserAgent req.userAgent = true) :
    (SecurityMiddleware.init.secureRequest req now).2 = ⟨false, some "Invalid user agent"⟩ := by
  simp [SecurityMiddleware.secureRequest, SecurityMiddleware.init, h, List.contains, List.elem]

theorem invalid_user_agent_denied_case :
    ((SecurityMiddleware.init.secureRequest
        ⟨"198.51.100.4", some "curl/7.68.0", some 100⟩ 0).2
      = ⟨false, some "Invalid user agent"⟩) :=
  invalid_user_agent_denied ⟨"198.51.100.4", some "curl/7.68.0", some 100⟩ 0 (by decide)

theorem cappedPush_of_lt {α : Type} (cap : Nat) (l : List α) (a : α) (h : l.length < cap) :
    cappedPush cap l a = l ++ [a] := by
  have hc : ¬ (cap < (l ++ [a]).length) := by simp; omega
  simp only [cappedPush]
  rw [if_neg hc]

theorem cappedPush_of_eq {α : Type} (cap : Nat) (l : List α) (a : α)
    (h : l.length = cap) (h1 : 1 ≤ cap) :
    cappedPush cap l a = l.drop 1 ++ [a] := by
  have hc : cap < (l ++ [a]).length := by simp; omega
  have hd : (l ++ [a]).drop 1 = l.drop 1 ++ [a] :=
    List.drop_append_of_le_length (by omega)
  simp only [cappedPush]
  rw [if_pos hc, hd]

theorem cappedPush_length_le {α : Type} (cap : Nat) (l : List α) (a : α)
    (h : l.length ≤ cap) (h1 : 1 ≤ cap) :
    (cappedPush cap l a).length ≤ cap := by
  rcases Nat.lt_or_ge l.length cap with hlt | hge
  · rw [cappedPush_of_lt _ _ _ hlt]; simp; omega
  · have he : l.length = cap := by omega
    rw [cappedPush_of_eq _ _ _ he h1]
    simp; omega

theorem samplesFor_record (d : PerformanceDashboard) (n : String) (v : JVal) :
    (d.recordMetric n v).samplesFor n = cappedPush maxSamples (d.samplesFor n) v := by
  simp [PerformanceDashboard.recordMetric, PerformanceDashboard.samplesFor, List.lookup]

theorem recordAll_samples (n : String) :
    ∀ (vs : List ℚ) (d : PerformanceDashboard),
      (d.samplesFor n).length + vs.length ≤ maxSamples →
      (d.recordAll n vs).samplesFor n = d.samplesFor n ++ vs.map JVal.num := by
  intro vs
  induction vs with
  | nil => intro d _; simp [PerformanceDashboard.recordAll]
  | cons q vs ih =>
      intro d h
      have hl : (d.samplesFor n).length < maxSamples := by
        simp at h; omega
      have step : (d.recordMetric n (JVal.num q)).samplesFor n
          = d.samplesFor n ++ [JVal.num q] := by
        rw [samplesFor_record, cappedPush_of_lt _ _ _ hl]
      show ((d.recordMetric n (JVal.num q)).recordAll n vs).samplesFor n = _
      rw [ih _ (by rw [step]; simp at h ⊢; omega), step]
      simp

theorem finiteVals_map_num (vs : List ℚ) : finiteVals (vs.map JVal.num) = vs := by
  induction vs with
  | nil => rfl
  | cons q vs ih => simp [finiteVals, List.filterMap] at ih ⊢; exact ih

theorem foldl_min_mem (xs : List ℚ) : ∀ x : ℚ, xs.foldl Min.min x ∈ x :: xs := by
  induction xs with
  | nil => intro x; simp
  | cons y ys ih =>
      intro x
      have h := ih (Min.min x y)
      rcases List.mem_cons.mp h with he | hm
      · rcases min_choice x y with hc | hc
        · simp only [List.foldl]
          rw [he, hc]; simp
        · simp only [List.foldl]
          rw [he, hc]; simp
      · simp only [List.foldl]
        exact List.mem_cons_of_mem _ (List.mem_cons_of_mem _ hm)

theorem foldl_min_le (xs : List ℚ) : ∀ x : ℚ, ∀ q ∈ x :: xs, xs.foldl Min.min x ≤ q := by
  induction xs with
  | nil => intro x q hq; simp at hq; simp [hq]
  | cons y ys ih =>
      intro x q hq
      have hle : ys.foldl Min.min (Min.min x y) ≤ Min.min x y :=
        ih (Min.min x y) (Min.min x y) (List.mem_cons_self _ _)
      rcases List.mem_cons.mp hq with rfl | hq'
      · simp only [List.foldl]
        exact le_trans hle (min_le_left _ _)
      · rcases List.mem_cons.mp hq' with rfl | hq''
        · simp only [List.foldl]
          exact le_trans hle (min_le_right _ _)
        · simp only [List.foldl]
          exact ih (Min.min x y) q (List.mem_cons_of_mem _ hq'')

theorem foldl_max_mem (xs : List ℚ) : ∀ x : ℚ, xs.foldl Max.max x ∈ x :: xs := by
  induction xs with
  | nil => intro x; simp
  | cons y ys ih =>
      intro x
      have h := ih (Max.max x y)
      rcases List.mem_cons.mp h with he | hm
      · rcases max_choice x y with hc | hc
        · simp only [List.foldl]
          rw [he, hc]; simp
        · simp only [List.foldl]
          rw [he, hc]; simp
      · simp only [List.foldl]
        exact List.mem_cons_of_mem _ (List.mem_cons_of_mem _ hm)

theorem foldl_max_ge (xs : List ℚ) : ∀ x : ℚ, ∀ q ∈ x :: xs, q ≤ xs.foldl Max.max x := by
  induction xs with
  | nil => intro x q hq; simp at hq; simp [hq]
  | cons y ys ih =>
      intro x q hq
      have hle : Max.max x y ≤ ys.foldl Max.max (Max.max x y) :=
        ih (Max.max x y) (Max.max x y) (List.mem_cons_self _ _)
      rcases List.mem_cons.mp hq with rfl | hq'
      · simp only [List.foldl]
        exact le_trans (le_max_left _ _) hle
      · rcases List.mem_cons.mp hq' with rfl | hq''
        · simp only [List.foldl]
          exact le_trans (le_max_right _ _) hle
        · simp only [List.foldl]
          exact ih (Max.max x y) q (List.mem_cons_of_mem _ hq'')

/-- Claim C5: for every sequence of finite values recorded for one metric (within the
retention bound), the derived summary satisfies `count` equal to the number of
recorded values, `avg` equal to their sum divided by the count, and `min` / `max`
equal to the minimum and maximum of the recorded values. -/
theorem metric_summary_aggregates (n : String) (vs : List ℚ) (h1 : vs ≠ [])
    (h2 : vs.length ≤ maxSamples) :
    ((PerformanceDashboard.empty.recordAll n vs).summaryFor n).count = vs.length ∧
    ((PerformanceDashboard.empty.recordAll n vs).summaryFor n).avg
      = vs.sum / (vs.length : ℚ) ∧
    (((PerformanceDashboard.empty.recordAll n vs).summaryFor n).min ∈ vs ∧
      ∀ q ∈ vs, ((PerformanceDashboard.empty.recordAll n vs).summaryFor n).min ≤ q) ∧
    (((PerformanceDashboard.empty.recordAll n vs).summaryFor n).max ∈ vs ∧
      ∀ q ∈ vs, q ≤ ((PerformanceDashboard.empty.recordAll n vs).summaryFor n).max) := by
  have h0 : (PerformanceDashboard.empty.samplesFor n) = [] := rfl
  have hs : (PerformanceDashboard.empty.recordAll n vs).samplesFor n = vs.map JVal.num := by
    rw [recordAll_samples n vs PerformanceDashboard.empty (by rw [h0]; simpa), h0]
    simp
  have hfin : finiteVals ((PerformanceDashboard.empty.recordAll n vs).samplesFor n) = vs := by
    rw [hs, finiteVals_map_num]
  refine ⟨?_, ?_, ?_, ?_⟩
  · simp [PerformanceDashboard.summaryFor, hs]
  · simp [PerformanceDashboard.summaryFor, hfin]
  · rcases vs with _ | ⟨q, qs⟩
    · exact absurd rfl h1
    · constructor
      · simpa [PerformanceDashboard.summaryFor, hfin, listMinQ] using foldl_min_mem qs q
      · intro p hp
        simpa [PerformanceDashboard.summaryFor, hfin, listMinQ] using foldl_min_le qs q p hp
  · rcases vs with _ | ⟨q, qs⟩
    · exact absurd rfl h1
    · constructor
      · simpa [PerformanceDashboard.summaryFor, hfin, listMaxQ] using foldl_max_mem qs q
      · intro p hp
        simpa [PerformanceDashboard.summaryFor, hfin, listMaxQ] using foldl_max_ge qs q p hp

theorem metric_summary_aggregates_case :
    ((PerformanceDashboard.empty.recordAll "response_time" [100, 200, 150]).summaryFor
        "response_time").count = ([100, 200, 150] : List ℚ).length ∧
    ((PerformanceDashboard.empty.recordAll "response_time" [100, 200, 150]).summaryFor
        "response_time").avg
      = ([100, 200, 150] : List ℚ).sum / (([100, 200, 150] : List ℚ).length : ℚ) ∧
    (((PerformanceDashboard.empty.recordAll "response_time" [100, 200, 150]).summaryFor
        "response_time").min ∈ ([100, 200, 150] : List ℚ) ∧
      ∀ q ∈ ([100, 200, 150] : List ℚ),
        ((PerformanceDashboard.empty.recordAll "response_time" [100, 200, 150]).summaryFor
          "response_time").min ≤ q) ∧
    (((PerformanceDashboard.empty.recordAll "response_time" [100, 200, 150]).summaryFor
        "response_time").max ∈ ([100, 200, 150] : List ℚ) ∧
      ∀ q ∈ ([100, 200, 150] : List ℚ),
        q ≤ ((PerformanceDashboard.empty.recordAll "response_time" [100, 200, 150]).summaryFor
          "response_time").max) :=
  metric_summary_aggregates "response_time" [100, 200, 150] (by simp) (by simp [maxSamples])

/-- Claim C6: whenever `recordMetric` records a value above that metric's fixed
threshold, exactly one `Alert` is appended whose `metric`, `value` and `threshold`
fields equal the recorded metric name, the recorded value and the configured
threshold, with warning severity (while the alert log is below its cap). -/
theorem alert_appended_on_breach (d : PerformanceDashboard) (n : String) (v : JVal)
    (t : ℚ) (ht : thresholds.lookup n = some t) (hv : v.exceeds t = true)
    (hlen : d.alerts.length < maxAlerts) :
    (d.recordMetric n v).alerts = d.alerts ++ [⟨n, v, t, "warning"⟩] := by
  simp only [PerformanceDashboard.recordMetric, ht, hv, if_pos]
  exact cappedPush_of_lt _ _ _ hlen

theorem alert_appended_on_breach_case :
    (PerformanceDashboard.empty.recordMetric "response_time" (JVal.num 2000)).alerts
      = PerformanceDashboard.empty.alerts
        ++ [⟨"response_time", JVal.num 2000, 1000, "warning"⟩] :=
  alert_appended_on_breach PerformanceDashboard.empty "response_time" (JVal.num 2000)
    1000 rfl (by decide) (by decide)

/-- Claim C7: for every metric name, the retained sample sequence never exceeds the
size bound of 1000 after a further `recordMetric` call (given it was within the
bound before), the new sample is appended at the end preserving insertion order,
and the oldest sample is evicted exactly when the bound would be exceeded. -/
theorem sample_sequence_capped (d : PerformanceDashboard) (n : String) (v : JVal)
    (h : (d.samplesFor n).length ≤ maxSamples) :
    ((d.recordMetric n v).samplesFor n).length ≤ maxSamples ∧
    ((d.samplesFor n).length < maxSamples →
      (d.recordMetric n v).samplesFor n = d.samplesFor n ++ [v]) ∧
    ((d.samplesFor n).length = maxSamples →
      (d.recordMetric n v).samplesFor n = (d.samplesFor n).drop 1 ++ [v]) := by
  refine ⟨?_, ?_, ?_⟩
  · rw [samplesFor_record]
    exact cappedPush_length_le _ _ _ h (by simp [maxSamples])
  · intro hlt
    rw [samplesFor_record]
    exact cappedPush_of_lt _ _ _ hlt
  · intro he
    rw [samplesFor_record]
    exact cappedPush_of_eq _ _ _ he (by simp [maxSamples])

theorem sample_sequence_capped_case :
    ((PerformanceDashboard.empty.recordMetric "high_frequency" (JVal.num 7)).samplesFor
        "high_frequency").length ≤ maxSamples ∧
    ((PerformanceDashboard.empty.samplesFor "high_frequency").length < maxSamples →
      (PerformanceDashboard.empty.recordMetric "high_frequency" (JVal.num 7)).samplesFor
          "high_frequency"
        = PerformanceDashboard.empty.samplesFor "high_frequency" ++ [JVal.num 7]) ∧
    ((PerformanceDashboard.empty.samplesFor "high_frequency").length = maxSamples →
      (PerformanceDashboard.empty.recordMetric "high_frequency" (JVal.num 7)).samplesFor
          "high_frequency"
        = (PerformanceDashboard.empty.samplesFor "high_frequency").drop 1 ++ [JVal.num 7]) :=
  sample_sequence_capped PerformanceDashboard.empty "high_frequency" (JVal.num 7) (by decide)

/-- The report generated after recording a sample for a metric exposes that metric:
looking the name up in the report summaries yields its current summary. -/
theorem report_lookup_recorded (e : PerformanceDashboard) (n : String) (v : JVal) :
    ((e.recordMetric n v).generateReport).summaries.lookup n
      = some ((e.recordMetric n v).summaryFor n) := by
  have hm : (e.recordMetric n v).metrics
      = (n, cappedPush maxSamples ((e.metrics.lookup n).getD []) v)
        :: e.metrics.eraseP (fun p => p.1 == n) := rfl
  simp [PerformanceDashboard.generateReport, hm, List.lookup]

/-- Claim C8: recording a non-finite metric value (NaN, +Infinity or -Infinity) never
throws — the model is a total function — the sample is recorded at the end of the
retained sequence and counted, it is excluded from the `avg` / `min` / `max`
aggregate computation (they are unchanged), and `generateReport` still returns a
well-defined report that exposes the metric with those unchanged aggregates. -/
theorem nonfinite_recorded_excluded (d : PerformanceDashboard) (n : String) (v : JVal)
    (hv : v.isFinite = false) (h : (d.samplesFor n).length < maxSamples) :
    (d.recordMetric n v).samplesFor n = d.samplesFor n ++ [v] ∧
    finiteVals ((d.recordMetric n v).samplesFor n) = finiteVals (d.samplesFor n) ∧
    ((d.recordMetric n v).summaryFor n).avg = (d.summaryFor n).avg ∧
    ((d.recordMetric n v).summaryFor n).min = (d.summaryFor n).min ∧
    ((d.recordMetric n v).summaryFor n).max = (d.summaryFor n).max ∧
    ((d.recordMetric n v).summaryFor n).count = (d.summaryFor n).count + 1 ∧
    ((d.recordMetric n v).generateReport).summaries.lookup n
      = some ((d.recordMetric n v).summaryFor n) := by
  have hs : (d.recordMetric n v).samplesFor n = d.samplesFor n ++ [v] := by
    rw [samplesFor_record]
    exact cappedPush_of_lt _ _ _ h
  have hf : finiteVals (d.samplesFor n ++ [v]) = finiteVals (d.samplesFor n) := by
    cases v with
    | num q => simp [JVal.isFinite] at hv
    | nan => simp [finiteVals]
    | inf => simp [finiteVals]
    | ninf => simp [finiteVals]
  refine ⟨hs, by rw [hs, hf], ?_, ?_, ?_, ?_, ?_⟩
  · simp [PerformanceDashboard.summaryFor, hs, hf]
  · simp [PerformanceDashboard.summaryFor, hs, hf]
  · simp [PerformanceDashboard.summaryFor, hs, hf]
  · simp [PerformanceDashboard.summaryFor, hs]
  · exact report_lookup_recorded d n v

theorem nonfinite_recorded_excluded_case :
    ((PerformanceDashboard.empty.recordMetric "edge_case" (JVal.num 5)).recordMetric
        "edge_case" JVal.inf).samplesFor "edge_case"
      = (PerformanceDashboard.empty.recordMetric "edge_case" (JVal.num 5)).samplesFor
          "edge_case" ++ [JVal.inf] ∧
    finiteVals (((PerformanceDashboard.empty.recordMetric "edge_case"
          (JVal.num 5)).recordMetric "edge_case" JVal.inf).samplesFor "edge_case")
      = finiteVals ((PerformanceDashboard.empty.recordMetric "edge_case"
          (JVal.num 5)).samplesFor "edge_case") ∧
    (((PerformanceDashboard.empty.recordMetric "edge_case" (JVal.num 5)).recordMetric
        "edge_case" JVal.inf).summaryFor "edge_case").avg
      = ((PerformanceDashboard.empty.recordMetric "edge_case" (JVal.num 5)).summaryFor
          "edge_case").avg ∧
    (((PerformanceDashboard.empty.recordMetric "edge_case" (JVal.num 5)).recordMetric
        "edge_case" JVal.inf).summaryFor "edge_case").min
      = ((PerformanceDashboard.empty.recordMetric "edge_case" (JVal.num 5)).summaryFor
          "edge_case").min ∧
    (((PerformanceDashboard.empty.recordMetric "edge_case" (JVal.num 5)).recordMetric
        "edge_case" JVal.inf).summaryFor "edge_case").max
      = ((PerformanceDashboard.empty.recordMetric "edge_case" (JVal.num 5)).summaryFor
          "edge_case").max ∧
    (((PerformanceDashboard.empty.recordMetric "edge_case" (JVal.num 5)).recordMetric
        "edge_case" JVal.inf).summaryFor "edge_case").count
      = ((PerformanceDashboard.empty.recordMetric "edge_case" (JVal.num 5)).summaryFor
          "edge_case").count + 1 ∧
    ((((PerformanceDashboard.empty.recordMetric "edge_case" (JVal.num 5)).recordMetric
        "edge_case" JVal.inf).generateReport).summaries.lookup "edge_case"
      = some (((PerformanceDashboard.empty.recordMetric "edge_case"
          (JVal.num 5)).recordMetric "edge_case" JVal.inf).summaryFor "edge_case")) :=
  nonfinite_recorded_excluded
    (PerformanceDashboard.empty.recordMetric "edge_case" (JVal.num 5)) "edge_case"
    JVal.inf (by decide) (by decide)

/-- Claim C4 counterexample: at the concrete input of a missing (or unparsable)
metafile, construction fails — but with the error message "Metafile not found or
invalid" asserted by the repository's test suite, which is not the string
"manifest not found or invalid" stated by the claim. -/
theorem manifest_error_message_differs :
    BundleAnalyzer.ofMetafile none = Except.error "Metafile not found or invalid" ∧
    "Metafile not found or invalid" ≠ "manifest not found or invalid" :=
  ⟨rfl, by decide⟩

/-- Claim C4 (amended): constructing a `BundleAnalyzer` from a path whose file is
missing or does not parse as the expected manifest structure fails with the distinct
error "Metafile not found or invalid"; a missing file never yields a
silently-constructed analyzer. -/
theorem manifest_missing_fails :
    BundleAnalyzer.ofMetafile none = Except.error "Metafile not found or invalid" ∧
    exOk (BundleAnalyzer.ofMetafile none) = false :=
  ⟨rfl, rfl⟩

/-- Claim C9 (implicit): `runPostBuildHooks` and `calculateBuildMetrics` tolerate
absent build output — for a null build result, or a result with undefined or empty
`outputs`, they return `totalSize = 0` and `bundleCount = 0` (with a compression
ratio of 100 for empty outputs) instead of throwing (both are total functions). -/
theorem build_metrics_tolerate_missing (s t : Nat) (o : HookOptions) :
    (calculateBuildMetrics none s t).totalSize = 0 ∧
    (calculateBuildMetrics none s t).bundleCount = 0 ∧
    (calculateBuildMetrics (some ⟨none⟩) s t).totalSize = 0 ∧
    (calculateBuildMetrics (some ⟨none⟩) s t).bundleCount = 0 ∧
    (calculateBuildMetrics (some ⟨some []⟩) s t).totalSize = 0 ∧
    (calculateBuildMetrics (some ⟨some []⟩) s t).bundleCount = 0 ∧
    (calculateBuildMetrics (some ⟨some []⟩) s t).compressionPercent = 100 ∧
    (runPostBuildHooks none o s t).totalSize = 0 ∧
    (runPostBuildHooks none o s t).bundleCount = 0 :=
  ⟨rfl, rfl, rfl, rfl, rfl, rfl, rfl, rfl, rfl⟩

/-- Claim C10 (implicit): `trackBundleSize` is total under a zero previous size —
the percentage delta is then the fallback string "0.0" rather than a
division-by-zero artifact — and the trend is "increase" exactly when the current
size exceeds the previous one and "unchanged" exactly when they are equal. -/
theorem track_bundle_size_zero_prev (c p : Nat) :
    (trackBundleSize c 0).deltaPercent = "0.0" ∧
    ((trackBundleSize c p).trend = "increase" ↔ p < c) ∧
    ((trackBundleSize c p).trend = "unchanged" ↔ c = p) := by
  refine ⟨by simp [trackBundleSize], ?_, ?_⟩
  · constructor
    · intro h
      by_cases h1 : p < c
      · exact h1
      · exfalso
        by_cases h2 : c < p
        · rw [trackBundleSize] at h
          simp only [if_neg h1, if_pos h2] at h
          exact (by decide : ("decrease" : String) ≠ "increase") h
        · rw [trackBundleSize] at h
          simp only [if_neg h1, if_neg h2] at h
          exact (by decide : ("unchanged" : String) ≠ "increase") h
    · intro h
      simp [trackBundleSize, h]
  · constructor
    · intro h
      by_cases h1 : p < c
      · exfalso
        rw [trackBundleSize] at h
        simp only [if_pos h1] at h
        exact (by decide : ("increase" : String) ≠ "unchanged") h
      · by_cases h2 : c < p
        · exfalso
          rw [trackBundleSize] at h
          simp only [if_neg h1, if_pos h2] at h
          exact (by decide : ("decrease" : String) ≠ "unchanged") h
        · omega
    · intro h
      have h1 : ¬ (p < c) := by omega
      have h2 : ¬ (c < p) := by omega
      rw [trackBundleSize]
      simp only [if_neg h1, if_neg h2]
